import Mathlib

/-
Verification of the dispatch / debounce core of multisite-lighthouse-gcp
(src/index.js), as a shallow embedding in Lean.

Strings of the JavaScript source are modelled as `List Char`; the private
message separator is the single character given on line 61 of the source.
-/

namespace MLGcp

/-- The private separator of the dispatch message format (src/index.js line 61,
`const separator = '_'`). -/
def sepChar : Char := '_'

/-- Splitting a character list on every occurrence of the separator, the
semantics of the JavaScript `msg.split(separator)` with a one-character
separator (src/index.js line 383): an empty input yields one empty token,
and every separator occurrence starts a new token. -/
def splitOnSep : List Char → List (List Char)
  | [] => [[]]
  | c :: cs =>
    if c = sepChar then
      [] :: splitOnSep cs
    else
      match splitOnSep cs with
      | [] => [[c]]
      | t :: ts => (c :: t) :: ts

/-- A field is valid for the delimited wire format when it does not contain
the private separator. -/
def sepFree (l : List Char) : Prop := sepChar ∉ l

instance (l : List Char) : Decidable (sepFree l) := by
  unfold sepFree; infer_instance

/-- The mode token for audits with third-party resources stripped
(src/index.js line 62). -/
def thirdPartyBlocked : List Char := "3PBlocked".toList

/-- The mode token for audits with third-party resources allowed
(src/index.js line 63). -/
def thirdPartyIncluded : List Char := "3PIncluded".toList

/-- The device token for mobile emulation (src/index.js lines 256, 259). -/
def mobileToken : List Char := "mobile".toList

/-- The device token for desktop emulation (src/index.js lines 257, 260). -/
def desktopToken : List Char := "desktop".toList

/-- The default execution id used when the fourth token of a message is
missing or empty (src/index.js line 411). -/
def noExecutionId : List Char := "no_execution_id".toList

/-- The sentinel identity that requests a fan-out over all targets
(src/index.js lines 402-405). -/
def allToken : List Char := "all".toList

/-- The audit mode dimension of a dispatch message: third-party resources
included or blocked. -/
inductive AuditMode
  | included
  | blocked
deriving DecidableEq

/-- The wire token emitted for each audit mode by the encoder
(src/index.js lines 256-260). -/
def modeToken : AuditMode → List Char
  | .included => thirdPartyIncluded
  | .blocked => thirdPartyBlocked

/-- Whether an audit mode is the blocked mode, as a boolean. -/
def modeIsBlocked : AuditMode → Bool
  | .included => false
  | .blocked => true

/-- The encoder of the dispatch message format: the template string
`id_mode_device_executionId` built in sendAllPubsubMsgs
(src/index.js lines 256-260), with the four fields joined by the private
separator. -/
def encodeMsg (id : List Char) (mode : AuditMode) (device : List Char)
    (batchId : List Char) : List Char :=
  id ++ (sepChar :: modeToken mode) ++ (sepChar :: device) ++ (sepChar :: batchId)

/-- The fields the trigger handler recovers from a message payload
(src/index.js lines 383-391 and 411): the identity token, whether the mode
token selects third-party blocking, the emulated form factor when the device
token is nonempty, and the execution id with its fallback default. -/
structure DecodedMsg where
  idMsg : List Char
  blocked : Bool
  formFactor : Option (List Char)
  executionId : List Char
deriving DecidableEq

/-- The decoder of the dispatch message format: the split-by-separator
parsing at the top of launchLighthouse (src/index.js lines 383-391):
`idMsg = msgParts[0]`; third-party blocking iff `msgParts[1] === '3PBlocked'`;
`emulatedFormFactor = msgParts[2]` only when that token is truthy (nonempty);
and `executionId = msgParts[3] || 'no_execution_id'` (line 411). -/
def decodeMsg (payload : List Char) : DecodedMsg :=
  let parts := splitOnSep payload
  let p2 := parts.getD 2 []
  let p3 := parts.getD 3 []
  { idMsg := parts.getD 0 []
    blocked := decide (parts.getD 1 [] = thirdPartyBlocked)
    formFactor := if p2 = [] then none else some p2
    executionId := if p3 = [] then noExecutionId else p3 }

/-- The per-identity block of messages one fan-out call publishes for a
single identity (src/index.js lines 255-261): the Included-mode messages for
mobile and desktop, then the Blocked-mode messages for both devices exactly
when the third-party blocklist environment variable is present. -/
def msgsForId (blocklistPresent : Bool) (executionId id : List Char) :
    List (List Char) :=
  [encodeMsg id .included mobileToken executionId,
   encodeMsg id .included desktopToken executionId] ++
  (if blocklistPresent then
    [encodeMsg id .blocked mobileToken executionId,
     encodeMsg id .blocked desktopToken executionId]
   else [])

/-- The full sequence of messages one invocation of sendAllPubsubMsgs
(src/index.js lines 252-263) hands to the sink: the per-identity blocks in
input order, all sharing the single execution id generated at line 253
(modelled here as the `executionId` argument, produced once per call). -/
def sendAllPubsubMsgs (blocklistPresent : Bool) (executionId : List Char) :
    List (List Char) → List (List Char)
  | [] => []
  | id :: rest =>
    msgsForId blocklistPresent executionId id ++
      sendAllPubsubMsgs blocklistPresent executionId rest

/-- The audit modes the spec requires a fan-out call to cover, Included
before Blocked, with Blocked present exactly when a blocklist configuration
is present. -/
def specModes (blocklistPresent : Bool) : List AuditMode :=
  if blocklistPresent then [.included, .blocked] else [.included]

/-- The fan-out message sequence as the spec describes it: identities in
input order, then modes Included-before-Blocked, then devices
Mobile-before-Desktop, every message carrying the one shared batch id. This
definition follows the words of the spec and is compared with the
source-derived `sendAllPubsubMsgs`. -/
def fanoutSpec (blocklistPresent : Bool) (batchId : List Char) :
    List (List Char) → List (List Char)
  | [] => []
  | id :: rest =>
    ((specModes blocklistPresent).flatMap fun m =>
      [mobileToken, desktopToken].map fun d => encodeMsg id m d batchId) ++
    fanoutSpec blocklistPresent batchId rest

/-- The value checkEventState resolves with (src/index.js lines 331, 339):
whether an event for the id is still active, and the rounded delta in
seconds when it is. -/
structure GateResult where
  active : Bool
  delta : Option Int
deriving DecidableEq

/-- The parsed contents of one state.json object: identity keys mapped to
the stored `created` timestamp in epoch milliseconds. -/
abbrev EventStateTable := List (List Char × Int)

/-- One object held by the storage bucket at some path: either a parsable
event-state table, or contents on which JSON parsing throws. -/
inductive StoredObject
  | table (t : EventStateTable)
  | corrupt
deriving DecidableEq

/-- The storage bucket as the gate sees it: a keyed store from object paths
to stored objects. -/
abbrev StateStore := List (List Char × StoredObject)

/-- Lookup in a keyed association list; models JavaScript object/bucket
indexing by key. -/
def lookupKey {α : Type} : List (List Char × α) → List Char → Option α
  | [], _ => none
  | (k, v) :: rest, key => if k = key then some v else lookupKey rest key

/-- Update or insert a key in an association list; models the JavaScript
assignment `obj[key] = value` (and the bucket save overwriting a path). -/
def setKey {α : Type} : List (List Char × α) → List Char → α → List (List Char × α)
  | [], key, v => [(key, v)]
  | (k, w) :: rest, key, v =>
    if k = key then (k, v) :: rest else (k, w) :: setKey rest key v

/-- The storage path of the state object for one identity
(src/index.js lines 321 and 336): `id/state.json`. -/
def statePath (id : List Char) : List Char := id ++ "/state.json".toList

/-- Loading the event-state table inside checkEventState
(src/index.js lines 315-326): download `id/state.json` and parse it; when
the object is absent or its contents do not parse, the thrown error is
caught and the table stays empty. -/
def loadTable (store : StateStore) (id : List Char) : EventStateTable :=
  match lookupKey store (statePath id) with
  | some (.table t) => t
  | some .corrupt => []
  | none => []

/-- The JavaScript `Math.round(delta/1000)` of src/index.js line 331:
rounding half toward positive infinity, i.e. the floor of
`(delta + 500) / 1000`. Lean integer division is Euclidean, which is the
floor for this positive divisor. -/
def jsRoundDiv1000 (delta : Int) : Int := (delta + 500) / 1000

/-- The debounce gate checkEventState (src/index.js lines 313-340). It
loads the table for the id, computes
`delta = id in eventStates && (timeNow - eventStates[id].created)`, and if
`delta` is truthy (nonzero) and below `config.minTimeBetweenTriggers`
returns the active result without touching the store; otherwise it
overwrites the entry with the current timestamp, saves the whole table back
to `id/state.json`, and returns the inactive result. The cooldown window is
the `minTime` parameter, read from configuration in the source. -/
def checkEventState (minTime : Int) (store : StateStore) (id : List Char)
    (timeNow : Int) : GateResult × StateStore :=
  let eventStates := loadTable store id
  match lookupKey eventStates id with
  | some created =>
    if timeNow - created ≠ 0 ∧ timeNow - created < minTime then
      ({ active := true, delta := some (jsRoundDiv1000 (timeNow - created)) },
       store)
    else
      ({ active := false, delta := none },
       setKey store (statePath id) (.table (setKey eventStates id timeNow)))
  | none =>
    ({ active := false, delta := none },
     setKey store (statePath id) (.table (setKey eventStates id timeNow)))

/-- The outcome of one sendToPubsub call (src/index.js lines 229-244)
against a sink that either accepts a message or raises an error: the first
component is the promise outcome seen by the caller, the second records
whether the sink accepted. The catch block at lines 239-243 logs a sink
error and returns normally, so the promise outcome is success in both
branches. -/
def sendToPubsubOutcome (sink : List Char → Except (List Char) Unit)
    (msg : List Char) : Except (List Char) Unit × Bool :=
  match sink msg with
  | .ok _ => (.ok (), true)
  | .error _ => (.ok (), false)

/-- Running one identity's async chain of awaited sendToPubsub calls
(src/index.js lines 254-261) in order: a rejected awaited send would abort
the rest of the chain with that error; a resolved send records the attempt
and continues. -/
def runChain (sink : List Char → Except (List Char) Unit) :
    List (List Char) → Except (List Char) (List (List Char × Bool))
  | [] => .ok []
  | m :: rest =>
    match (sendToPubsubOutcome sink m).1 with
    | .error e => .error e
    | .ok _ =>
      match runChain sink rest with
      | .error e => .error e
      | .ok attempts => .ok ((m, (sendToPubsubOutcome sink m).2) :: attempts)

/-- The promise returned by sendAllPubsubMsgs (src/index.js line 254):
`Promise.all` over the per-identity chains — it rejects with a chain error
when one occurs and otherwise resolves with every attempt record. -/
def sendAllPubsubMsgsRun (sink : List Char → Except (List Char) Unit)
    (blocklistPresent : Bool) (executionId : List Char) :
    List (List Char) → Except (List Char) (List (List Char × Bool))
  | [] => .ok []
  | id :: rest =>
    match runChain sink (msgsForId blocklistPresent executionId id),
          sendAllPubsubMsgsRun sink blocklistPresent executionId rest with
    | .error e, _ => .error e
    | .ok _, .error e => .error e
    | .ok a1, .ok a2 => .ok (a1 ++ a2)

/-- A sink that rejects exactly the Included/mobile message of identity `a`
with error `boom` and accepts every other message. -/
def failingSink : List Char → Except (List Char) Unit := fun m =>
  if m = encodeMsg ("a".toList) .included mobileToken ("e".toList) then
    .error ("boom".toList)
  else .ok ()

/-- One entry of the target list: an identity and the URL to audit
(config source objects of src/index.js line 393 and 408-410). -/
structure SourceEntry where
  id : List Char
  url : List Char
deriving DecidableEq

/-- The single-quote character, written by code point to build the literal
below. -/
def quoteChar : Char := Char.ofNat 39

/-- The exact string assigned to `msg` at src/index.js line 382: the decode
expression is enclosed in quotation marks there, so `msg` is this constant
text rather than the decoded Pub/Sub payload. -/
def literalMsg : List Char :=
  "Buffer.from(event.data, ".toList ++
    quoteChar :: "base64".toList ++
    quoteChar :: ").toString()".toList

/-- The terminal routing outcomes of one launchLighthouse invocation
(src/index.js lines 382-413): drop with the log `No valid message found!`
(line 402), delegate to sendAllPubsubMsgs over all ids (line 405), or
proceed to the single-job audit path with the resolved target and decoded
flags (lines 408-413). -/
inductive Route
  | invalid
  | dispatched (ids : List (List Char))
  | singleAudit (id url : List Char) (blocked : Bool)
      (formFactor : Option (List Char)) (executionId : List Char)
deriving DecidableEq

/-- The routing portion of launchLighthouse (src/index.js lines 382-413),
as a function of the target list and the delivered Pub/Sub payload. The
payload argument is unused because line 382 assigns the constant
`literalMsg` instead of decoding `event.data`; the parsing, the validity
guard of line 402, the sentinel check of line 404 and the target resolution
of lines 408-411 are modelled as written. -/
def launchLighthouseRoute (source : List SourceEntry) (eventData : List Char) :
    Route :=
  let msg := literalMsg
  let parsed := decodeMsg msg
  let ids := source.map (fun s => s.id)
  if parsed.idMsg ≠ allToken ∧ parsed.idMsg ∉ ids then .invalid
  else if parsed.idMsg = allToken then .dispatched ids
  else
    match source.find? (fun s => decide (s.id = parsed.idMsg)) with
    | some src =>
      .singleAudit src.id src.url parsed.blocked parsed.formFactor
        parsed.executionId
    | none => .invalid

/-- A one-entry demonstration target list. -/
def demoSource : List SourceEntry :=
  [⟨"siteA".toList, "urlA".toList⟩]

end MLGcp

namespace MLGcp

theorem splitOnSep_ne_nil (l : List Char) : splitOnSep l ≠ [] := by
  induction l with
  | nil => simp [splitOnSep]
  | cons c cs ih =>
    unfold splitOnSep
    by_cases h : c = sepChar
    · simp [h]
    · simp only [h, if_false]
      cases hcs : splitOnSep cs with
      | nil => simp
      | cons t ts => simp

theorem splitOnSep_sepFree {l : List Char} (h : sepFree l) : splitOnSep l = [l] := by
  induction l with
  | nil => rfl
  | cons c cs ih =>
    have hc : c ≠ sepChar := fun hc => h (hc ▸ List.mem_cons_self c cs)
    have hcs : sepFree cs := fun hm => h (List.mem_cons_of_mem c hm)
    unfold splitOnSep
    simp [hc, ih hcs]

theorem splitOnSep_append {l : List Char} (r : List Char) (h : sepFree l) :
    splitOnSep (l ++ sepChar :: r) = l :: splitOnSep r := by
  induction l with
  | nil => simp [splitOnSep]
  | cons c cs ih =>
    have hc : c ≠ sepChar := fun hc => h (hc ▸ List.mem_cons_self c cs)
    have hcs : sepFree cs := fun hm => h (List.mem_cons_of_mem c hm)
    show splitOnSep (c :: (cs ++ sepChar :: r)) = (c :: cs) :: splitOnSep r
    conv_lhs => unfold splitOnSep
    rw [if_neg hc, ih hcs]

theorem splitOnSep_encodeMsg (id d b : List Char) (m : AuditMode)
    (hid : sepFree id) (hd : sepFree d) (hb : sepFree b) :
    splitOnSep (encodeMsg id m d b) = [id, modeToken m, d, b] := by
  have hm : sepFree (modeToken m) := by cases m <;> decide
  have h1 : encodeMsg id m d b =
      id ++ sepChar :: (modeToken m ++ sepChar :: (d ++ sepChar :: b)) := by
    unfold encodeMsg
    simp [List.append_assoc, List.cons_append]
  rw [h1, splitOnSep_append _ hid, splitOnSep_append _ hm,
    splitOnSep_append _ hd, splitOnSep_sepFree hb]

/-- Decoding an encoded message recovers every field, provided no field
contains the separator and the device and batch tokens are nonempty. -/
theorem decode_encode (id d b : List Char) (m : AuditMode)
    (hid : sepFree id) (hd : sepFree d) (hb : sepFree b)
    (hd0 : d ≠ []) (hb0 : b ≠ []) :
    decodeMsg (encodeMsg id m d b) =
      ⟨id, modeIsBlocked m, some d, b⟩ := by
  unfold decodeMsg
  rw [splitOnSep_encodeMsg id d b m hid hd hb]
  simp only [List.getD]
  cases m with
  | included =>
    simp [hd0, hb0, modeIsBlocked]
    decide
  | blocked =>
    simp [hd0, hb0, modeIsBlocked]
    decide

theorem decode_encode_device (id e : List Char) (mo : AuditMode) (d : List Char)
    (hid : sepFree id) (he : sepFree e) (he0 : e ≠ [])
    (hd : d = mobileToken ∨ d = desktopToken) :
    decodeMsg (encodeMsg id mo d e) = ⟨id, modeIsBlocked mo, some d, e⟩ := by
  rcases hd with rfl | rfl <;>
    exact decode_encode id _ e mo hid (by decide) he (by decide) he0

theorem encodeMsg_ne_nil (id d b : List Char) (m : AuditMode) :
    encodeMsg id m d b ≠ [] := by
  unfold encodeMsg
  simp

theorem lookupKey_setKey_self {α : Type} (l : List (List Char × α))
    (key : List Char) (v : α) : lookupKey (setKey l key v) key = some v := by
  induction l with
  | nil => simp [setKey, lookupKey]
  | cons p rest ih =>
    obtain ⟨k, w⟩ := p
    by_cases h : k = key
    · simp [setKey, lookupKey, h]
    · simp [setKey, lookupKey, h, ih]

theorem lookupKey_setKey_ne {α : Type} (l : List (List Char × α))
    (key k : List Char) (v : α) (h : k ≠ key) :
    lookupKey (setKey l key v) k = lookupKey l k := by
  induction l with
  | nil => simp [setKey, lookupKey, Ne.symm h]
  | cons p rest ih =>
    obtain ⟨k0, w⟩ := p
    by_cases h0 : k0 = key
    · subst h0
      have hk0 : k0 ≠ k := fun hk => h hk.symm
      simp [setKey, lookupKey, hk0]
    · by_cases hk : k0 = k
      · simp [setKey, lookupKey, h0, hk, h]
      · simp [setKey, lookupKey, h0, hk, ih]

theorem statePath_inj {a b : List Char} (h : statePath a = statePath b) :
    a = b := by
  unfold statePath at h
  exact List.append_cancel_right h

/-- Claim C2 (corrected): for an identity stored in the loaded table whose
elapsed time `timeNow - created` is nonzero and below the configured
cooldown window, checkEventState returns active with a delta equal to the
rounded elapsed seconds, which is within one second (in fact within half a
second) of the true elapsed time. -/
theorem checkEventState_debounce_active (minTime : Int) (store : StateStore)
    (id : List Char) (timeNow created : Int)
    (hlook : lookupKey (loadTable store id) id = some created)
    (hne : timeNow - created ≠ 0) (hlt : timeNow - created < minTime) :
    (checkEventState minTime store id timeNow).1 =
      { active := true, delta := some (jsRoundDiv1000 (timeNow - created)) } ∧
    timeNow - created - 500 ≤ 1000 * jsRoundDiv1000 (timeNow - created) ∧
    1000 * jsRoundDiv1000 (timeNow - created) ≤ timeNow - created + 500 := by
  refine ⟨?_, ?_, ?_⟩
  · simp [checkEventState, hlook, hne, hlt]
  · simp only [jsRoundDiv1000]
    omega
  · simp only [jsRoundDiv1000]
    omega

/-- Claim C2 counterexample: an identity whose stored timestamp equals the
current call's timestamp satisfies the claim's hypothesis (elapsed time 0
is below the window 5000) and yet the call returns active = false. -/
theorem checkEventState_debounce_counterexample :
    lookupKey (loadTable [(statePath ("a".toList),
        StoredObject.table [(("a".toList), (1000 : Int))])] ("a".toList))
      ("a".toList) = some 1000 ∧
    (1000 : Int) - 1000 < 5000 ∧
    (checkEventState 5000 [(statePath ("a".toList),
        StoredObject.table [(("a".toList), (1000 : Int))])]
      ("a".toList) 1000).1.active = false := by
  decide

/-- Claim C2 witness: a concrete stored entry 2500 milliseconds old inside
a 10000 millisecond window is rejected with delta 3 seconds. -/
theorem checkEventState_debounce_active_witness :
    (checkEventState 10000 [(statePath ("a".toList),
        StoredObject.table [(("a".toList), (1000 : Int))])]
      ("a".toList) 3500).1 =
      { active := true, delta := some (jsRoundDiv1000 (3500 - 1000)) } ∧
    (3500 : Int) - 1000 - 500 ≤ 1000 * jsRoundDiv1000 (3500 - 1000) ∧
    1000 * jsRoundDiv1000 (3500 - 1000) ≤ 3500 - 1000 + 500 :=
  checkEventState_debounce_active 10000 _ ("a".toList) 3500 1000
    (by decide) (by decide) (by decide)

/-- Claim C3 (confirmed): every call of checkEventState that is not
rejected as a duplicate — in particular when the identity is absent from
the loaded table, or when its stored timestamp is at least the cooldown
window old — returns inactive and persists the table with the entry for
that identity overwritten to the supplied current timestamp. -/
theorem checkEventState_admit_writes (minTime : Int) (store : StateStore)
    (id : List Char) (timeNow : Int)
    (h : lookupKey (loadTable store id) id = none ∨
         ∃ created, lookupKey (loadTable store id) id = some created ∧
           minTime ≤ timeNow - created) :
    (checkEventState minTime store id timeNow).1 =
      { active := false, delta := none } ∧
    lookupKey (checkEventState minTime store id timeNow).2 (statePath id) =
      some (.table (setKey (loadTable store id) id timeNow)) ∧
    lookupKey (setKey (loadTable store id) id timeNow) id = some timeNow := by
  rcases h with h | ⟨created, hc, hge⟩
  · refine ⟨?_, ?_, lookupKey_setKey_self _ _ _⟩
    · simp [checkEventState, h]
    · simp [checkEventState, h, lookupKey_setKey_self]
  · have hcond : ¬(timeNow - created ≠ 0 ∧ timeNow - created < minTime) := by
      omega
    refine ⟨?_, ?_, lookupKey_setKey_self _ _ _⟩
    · simp [checkEventState, hc, hcond]
    · simp [checkEventState, hc, hcond, lookupKey_setKey_self]

/-- Claim C3 witness: a fresh identity against an empty store is admitted
and its entry is persisted. -/
theorem checkEventState_admit_writes_witness :
    (checkEventState 100 [] ("a".toList) 42).1 =
      { active := false, delta := none } ∧
    lookupKey (checkEventState 100 [] ("a".toList) 42).2
      (statePath ("a".toList)) =
      some (.table (setKey (loadTable [] ("a".toList)) ("a".toList) 42)) ∧
    lookupKey (setKey (loadTable [] ("a".toList)) ("a".toList) 42)
      ("a".toList) = some 42 :=
  checkEventState_admit_writes 100 [] ("a".toList) 42 (Or.inl (by decide))

/-- Claim C8 (confirmed): when the state object for the identity is absent
from the store or its contents do not parse, the gate proceeds as with an
empty table: it returns inactive and persists a fresh one-entry table for
the identity. -/
theorem checkEventState_failOpen (minTime : Int) (store : StateStore)
    (id : List Char) (timeNow : Int)
    (h : lookupKey store (statePath id) = none ∨
         lookupKey store (statePath id) = some StoredObject.corrupt) :
    (checkEventState minTime store id timeNow).1 =
      { active := false, delta := none } ∧
    lookupKey (checkEventState minTime store id timeNow).2 (statePath id) =
      some (.table [(id, timeNow)]) := by
  have hload : loadTable store id = [] := by
    rcases h with h | h <;> simp [loadTable, h]
  constructor
  · simp [checkEventState, hload, lookupKey]
  · simp [checkEventState, hload, lookupKey, setKey, lookupKey_setKey_self]

/-- Claim C8 witness: a corrupt state object is treated as an empty table
and the identity is admitted. -/
theorem checkEventState_failOpen_witness :
    (checkEventState 100 [(statePath ("a".toList), StoredObject.corrupt)]
      ("a".toList) 42).1 = { active := false, delta := none } ∧
    lookupKey (checkEventState 100
        [(statePath ("a".toList), StoredObject.corrupt)]
      ("a".toList) 42).2 (statePath ("a".toList)) =
      some (.table [(("a".toList), (42 : Int))]) :=
  checkEventState_failOpen 100 _ ("a".toList) 42 (Or.inr (by decide))

/-- Claim C9 (confirmed): an identity whose stored created timestamp equals
the supplied current timestamp is admitted, not debounced: the computed
delta of 0 fails the truthiness guard, the call returns inactive and the
entry is overwritten. -/
theorem checkEventState_zero_delta (minTime : Int) (store : StateStore)
    (id : List Char) (timeNow : Int)
    (h : lookupKey (loadTable store id) id = some timeNow) :
    (checkEventState minTime store id timeNow).1 =
      { active := false, delta := none } ∧
    lookupKey (checkEventState minTime store id timeNow).2 (statePath id) =
      some (.table (setKey (loadTable store id) id timeNow)) := by
  constructor
  · simp [checkEventState, h]
  · simp [checkEventState, h, lookupKey_setKey_self]

/-- Claim C9 witness: a duplicate check in the same millisecond is admitted. -/
theorem checkEventState_zero_delta_witness :
    (checkEventState 100 [(statePath ("a".toList),
        StoredObject.table [(("a".toList), (7 : Int))])] ("a".toList) 7).1 =
      { active := false, delta := none } ∧
    lookupKey (checkEventState 100 [(statePath ("a".toList),
        StoredObject.table [(("a".toList), (7 : Int))])] ("a".toList) 7).2
      (statePath ("a".toList)) =
      some (.table (setKey (loadTable [(statePath ("a".toList),
        StoredObject.table [(("a".toList), (7 : Int))])] ("a".toList))
        ("a".toList) 7)) :=
  checkEventState_zero_delta 100 _ ("a".toList) 7 (by decide)

/-- Claim C10 (confirmed): a gate check for key `id` writes only the state
object at `id/state.json` — the object at `k/state.json` of any distinct
key `k` is unchanged — and reads only the state object at `id/state.json`:
two stores agreeing there produce the same gate result. -/
theorem checkEventState_frame (minTime : Int) (s1 s2 : StateStore)
    (id k : List Char) (timeNow : Int) (hk : k ≠ id)
    (hread : lookupKey s1 (statePath id) = lookupKey s2 (statePath id)) :
    lookupKey (checkEventState minTime s1 id timeNow).2 (statePath k) =
      lookupKey s1 (statePath k) ∧
    (checkEventState minTime s1 id timeNow).1 =
      (checkEventState minTime s2 id timeNow).1 := by
  have hpath : statePath k ≠ statePath id := fun hp => hk (statePath_inj hp)
  have hload : loadTable s1 id = loadTable s2 id := by
    simp [loadTable, hread]
  constructor
  · simp only [checkEventState]
    cases hcase : lookupKey (loadTable s1 id) id with
    | none => simp [lookupKey_setKey_ne _ _ _ _ hpath]
    | some created =>
      by_cases hcond : timeNow - created ≠ 0 ∧ timeNow - created < minTime
      · simp [hcond]
      · simp [hcond, lookupKey_setKey_ne _ _ _ _ hpath]
  · simp only [checkEventState]
    rw [hload]
    cases hcase : lookupKey (loadTable s2 id) id with
    | none => simp
    | some created =>
      by_cases hcond : timeNow - created ≠ 0 ∧ timeNow - created < minTime
      · simp [hcond]
      · simp [hcond]

/-- Claim C10 witness: a check for key `a` leaves the state object of key
`b` untouched, and the result agrees across stores equal at the path of
`a`. -/
theorem checkEventState_frame_witness :
    lookupKey (checkEventState 100 [(statePath ("a".toList),
        StoredObject.table [(("a".toList), (5 : Int))])] ("a".toList) 10).2
      (statePath ("b".toList)) =
      lookupKey [(statePath ("a".toList),
        StoredObject.table [(("a".toList), (5 : Int))])]
        (statePath ("b".toList)) ∧
    (checkEventState 100 [(statePath ("a".toList),
        StoredObject.table [(("a".toList), (5 : Int))])] ("a".toList) 10).1 =
    (checkEventState 100 [(statePath ("a".toList),
        StoredObject.table [(("a".toList), (5 : Int))])] ("a".toList) 10).1 :=
  checkEventState_frame 100 _ _ ("a".toList) ("b".toList) 10
    (by decide) rfl

/-- Claim C1 (corrected): for every identity, mode, device and batch id not
containing the private separator and with the device and batch id nonempty,
decoding the payload produced by the encoder yields back exactly that
identity, mode, device and batch id. -/
theorem dispatch_roundtrip (id d b : List Char) (m : AuditMode)
    (hid : sepFree id) (hd : sepFree d) (hb : sepFree b)
    (hd0 : d ≠ []) (hb0 : b ≠ []) :
    (decodeMsg (encodeMsg id m d b)).idMsg = id ∧
    (decodeMsg (encodeMsg id m d b)).blocked = modeIsBlocked m ∧
    (decodeMsg (encodeMsg id m d b)).formFactor = some d ∧
    (decodeMsg (encodeMsg id m d b)).executionId = b := by
  rw [decode_encode id d b m hid hd hb hd0 hb0]
  exact ⟨rfl, rfl, rfl, rfl⟩

/-- Claim C1 witness: a concrete fully populated message round-trips. -/
theorem dispatch_roundtrip_witness :
    (decodeMsg (encodeMsg ("a".toList) AuditMode.included ("mobile".toList)
      ("e".toList))).idMsg = "a".toList ∧
    (decodeMsg (encodeMsg ("a".toList) AuditMode.included ("mobile".toList)
      ("e".toList))).blocked = modeIsBlocked AuditMode.included ∧
    (decodeMsg (encodeMsg ("a".toList) AuditMode.included ("mobile".toList)
      ("e".toList))).formFactor = some ("mobile".toList) ∧
    (decodeMsg (encodeMsg ("a".toList) AuditMode.included ("mobile".toList)
      ("e".toList))).executionId = "e".toList :=
  dispatch_roundtrip ("a".toList) ("mobile".toList) ("e".toList)
    AuditMode.included (by decide) (by decide) (by decide) (by decide)
    (by decide)

/-- Claim C1 counterexample: all fields are separator-free (valid in the
claim's sense) but the device and batch fields are empty, and decoding the
encoded payload does not return them: the form factor comes back absent and
the execution id comes back as the default. -/
theorem dispatch_roundtrip_counterexample :
    sepFree ("a".toList) ∧ sepFree ([] : List Char) ∧
    decodeMsg (encodeMsg ("a".toList) AuditMode.included [] []) ≠
      ⟨"a".toList, modeIsBlocked AuditMode.included, some [], []⟩ := by
  decide

theorem msgsForId_length (bl : Bool) (e id : List Char) :
    (msgsForId bl e id).length = if bl then 4 else 2 := by
  cases bl <;> rfl

theorem msgsForId_spec (bl : Bool) (e id : List Char) :
    msgsForId bl e id = (specModes bl).flatMap fun m =>
      [mobileToken, desktopToken].map fun d => encodeMsg id m d e := by
  cases bl <;> rfl

theorem sendAll_eq_fanoutSpec (bl : Bool) (e : List Char) :
    ∀ ids : List (List Char),
      sendAllPubsubMsgs bl e ids = fanoutSpec bl e ids
  | [] => rfl
  | id :: rest => by
    simp only [sendAllPubsubMsgs, fanoutSpec, sendAll_eq_fanoutSpec bl e rest,
      msgsForId_spec]

theorem sendAll_length (bl : Bool) (e : List Char) :
    ∀ ids : List (List Char),
      (sendAllPubsubMsgs bl e ids).length = (if bl then 4 else 2) * ids.length
  | [] => by cases bl <;> rfl
  | id :: rest => by
    simp only [sendAllPubsubMsgs, List.length_append, msgsForId_length,
      sendAll_length bl e rest, List.length_cons]
    cases bl <;> simp <;> omega

theorem msgsForId_fields (bl : Bool) (e id m : List Char)
    (hid : sepFree id) (he : sepFree e) (he0 : e ≠ [])
    (hm : m ∈ msgsForId bl e id) :
    (decodeMsg m).executionId = e ∧ (decodeMsg m).idMsg = id ∧ m ≠ [] := by
  have key : ∃ mo dtok, (dtok = mobileToken ∨ dtok = desktopToken) ∧
      m = encodeMsg id mo dtok e := by
    cases bl
    · simp only [msgsForId, Bool.false_eq_true, if_false, List.append_nil,
        List.mem_cons, List.not_mem_nil, or_false] at hm
      rcases hm with rfl | rfl
      · exact ⟨.included, mobileToken, Or.inl rfl, rfl⟩
      · exact ⟨.included, desktopToken, Or.inr rfl, rfl⟩
    · simp only [msgsForId, if_true, List.mem_append, List.mem_cons,
        List.not_mem_nil, or_false] at hm
      rcases hm with (rfl | rfl) | (rfl | rfl)
      · exact ⟨.included, mobileToken, Or.inl rfl, rfl⟩
      · exact ⟨.included, desktopToken, Or.inr rfl, rfl⟩
      · exact ⟨.blocked, mobileToken, Or.inl rfl, rfl⟩
      · exact ⟨.blocked, desktopToken, Or.inr rfl, rfl⟩
  obtain ⟨mo, dtok, hd, rfl⟩ := key
  rw [decode_encode_device id e mo dtok hid he he0 hd]
  exact ⟨rfl, rfl, encodeMsg_ne_nil id dtok e mo⟩

theorem sendAll_mem_fields (bl : Bool) (e : List Char) :
    ∀ ids : List (List Char), (∀ id ∈ ids, sepFree id) → sepFree e →
      e ≠ [] → ∀ m ∈ sendAllPubsubMsgs bl e ids,
      m ≠ [] ∧ (decodeMsg m).executionId = e ∧
        ∃ id, id ∈ ids ∧ (decodeMsg m).idMsg = id
  | [], _, _, _, m, hm => by simp [sendAllPubsubMsgs] at hm
  | id :: rest, hids, he, he0, m, hm => by
    simp only [sendAllPubsubMsgs, List.mem_append] at hm
    rcases hm with hm | hm
    · obtain ⟨h1, h2, h3⟩ :=
        msgsForId_fields bl e id m (hids id (List.mem_cons_self _ _)) he he0 hm
      exact ⟨h3, h1, id, List.mem_cons_self _ _, h2⟩
    · obtain ⟨h1, h2, i, hi, h4⟩ :=
        sendAll_mem_fields bl e rest
          (fun j hj => hids j (List.mem_cons_of_mem _ hj)) he he0 m hm
      exact ⟨h1, h2, i, List.mem_cons_of_mem _ hi, h4⟩

/-- Claim C4 (confirmed): one fan-out call over a list of identities emits
exactly the message sequence the spec prescribes (identities in order,
Included for mobile and desktop, plus Blocked for both devices exactly when
a blocklist is present), so exactly 2 messages per identity without a
blocklist and 4 with one, each message nonempty and carrying the one batch
id generated for the call. -/
theorem sendAllPubsubMsgs_fanout (bl : Bool) (e : List Char)
    (ids : List (List Char)) (hids : ∀ id ∈ ids, sepFree id)
    (he : sepFree e) (he0 : e ≠ []) :
    sendAllPubsubMsgs bl e ids = fanoutSpec bl e ids ∧
    (sendAllPubsubMsgs bl e ids).length = (if bl then 4 else 2) * ids.length ∧
    ∀ m ∈ sendAllPubsubMsgs bl e ids,
      m ≠ [] ∧ (decodeMsg m).executionId = e ∧
        ∃ id, id ∈ ids ∧ (decodeMsg m).idMsg = id :=
  ⟨sendAll_eq_fanoutSpec bl e ids, sendAll_length bl e ids,
    sendAll_mem_fields bl e ids hids he he0⟩

/-- Claim C4 witness: the fan-out over identities `a` and `b` with a
blocklist present. -/
theorem sendAllPubsubMsgs_fanout_witness :
    sendAllPubsubMsgs true ("e".toList) [("a".toList), ("b".toList)] =
      fanoutSpec true ("e".toList) [("a".toList), ("b".toList)] ∧
    (sendAllPubsubMsgs true ("e".toList)
      [("a".toList), ("b".toList)]).length =
      (if true then 4 else 2) * [("a".toList), ("b".toList)].length ∧
    ∀ m ∈ sendAllPubsubMsgs true ("e".toList) [("a".toList), ("b".toList)],
      m ≠ [] ∧ (decodeMsg m).executionId = "e".toList ∧
        ∃ id, id ∈ [("a".toList), ("b".toList)] ∧ (decodeMsg m).idMsg = id :=
  sendAllPubsubMsgs_fanout true ("e".toList) [("a".toList), ("b".toList)]
    (by decide) (by decide) (by decide)

/-- Claim C5 (code_bug): a message whose payload is the sentinel identity
`all` is not routed to the fan-out dispatcher: line 382 of the source
assigns the quoted text of the decode expression instead of its value, so
the identity token is that constant text, the sentinel check fails, and the
handler logs `No valid message found!` and drops the message. -/
theorem launchLighthouse_all_not_dispatched :
    launchLighthouseRoute demoSource allToken = Route.invalid := by
  decide

/-- Claim C6 (confirmed): the handler is total over payloads — for every
delivered payload, in particular malformed ones with a wrong token count or
an empty identity, launchLighthouse reaches the logged drop outcome of line
402 instead of an unhandled fault, and that outcome is terminal (the
message is not retried), provided no configured identity equals the
constant text of line 382. -/
theorem launchLighthouse_drops_malformed (source : List SourceEntry)
    (payload : List Char)
    (h : literalMsg ∉ source.map (fun s => s.id)) :
    launchLighthouseRoute source payload = Route.invalid := by
  have hid : (decodeMsg literalMsg).idMsg = literalMsg := by decide
  have hall : (decodeMsg literalMsg).idMsg ≠ allToken := by decide
  simp only [launchLighthouseRoute]
  rw [if_pos]
  exact ⟨hall, by rw [hid]; exact h⟩

/-- Claim C6 witness: the empty payload (no tokens, empty identity) is
dropped. -/
theorem launchLighthouse_drops_malformed_witness :
    launchLighthouseRoute [⟨"siteA".toList, "urlA".toList⟩] [] =
      Route.invalid :=
  launchLighthouse_drops_malformed [⟨"siteA".toList, "urlA".toList⟩] []
    (by decide)

theorem sendToPubsubOutcome_fst (sink : List Char → Except (List Char) Unit)
    (m : List Char) : (sendToPubsubOutcome sink m).1 = .ok () := by
  unfold sendToPubsubOutcome
  cases sink m <;> rfl

theorem runChain_ok (sink : List Char → Except (List Char) Unit) :
    ∀ msgs : List (List Char), runChain sink msgs =
      .ok (msgs.map fun m => (m, (sendToPubsubOutcome sink m).2))
  | [] => rfl
  | m :: rest => by
    simp only [runChain, sendToPubsubOutcome_fst, runChain_ok sink rest,
      List.map_cons]

/-- Claim C7 (corrected): the promise of one fan-out invocation always
resolves — sink errors are caught and logged inside sendToPubsub, never
propagated — and a send is attempted for every message of the call, so a
failure for one identity's message does not block delivery attempts for
any other message. -/
theorem sendAllPubsubMsgs_run_attempts_all
    (sink : List Char → Except (List Char) Unit) (bl : Bool)
    (e : List Char) :
    ∀ ids : List (List Char), sendAllPubsubMsgsRun sink bl e ids =
      .ok ((sendAllPubsubMsgs bl e ids).map fun m =>
        (m, (sendToPubsubOutcome sink m).2))
  | [] => rfl
  | id :: rest => by
    simp only [sendAllPubsubMsgsRun, runChain_ok sink,
      sendAllPubsubMsgs_run_attempts_all sink bl e rest, sendAllPubsubMsgs,
      List.map_append]

/-- Claim C7 counterexample: a sink rejecting the first message of identity
`a` makes that sink send fail, yet the promise of the fan-out dispatcher
resolves instead of failing with the sink error. -/
theorem sendAllPubsubMsgs_swallows_sink_error :
    (failingSink (encodeMsg ("a".toList) AuditMode.included mobileToken
      ("e".toList))).isOk = false ∧
    (sendAllPubsubMsgsRun failingSink false ("e".toList)
      [("a".toList), ("b".toList)]).isOk = true := by
  decide

end MLGcp
